import Mathlib

/-!
Verification development for the L2 gas-pricing controller (`l2pricing`).

The Go source `UpdatePricingModel`, `UpdatePricingModel_preExp`,
`AddToGasPool`, `AddToGasPool_preExp` and `PerBlockGasLimit` is embedded
shallowly below.  Machine integers are embedded as `Nat` (uint64, and the
wei-denominated big integers) and `Int` (int64), with Go's wrapping
semantics made explicit through `wrap64` / `wrapI64` / the cast functions;
Go division is `Int.tdiv` (truncation toward zero).

The `arbmath` helpers and the typed storage accessors are not part of the
given source tree; they are modelled from the specification (each such
definition carries a doc comment starting with `Modelled from the spec:`).
Storage is modelled as the record of persisted scalars `L2PricingState`;
storage reads/writes are field reads/updates (the error channel of the
storage backend is modelled separately for the error-handling analysis).
-/

/-- Reduction of an unsigned 64-bit intermediate modulo `2^64` (Go uint64
arithmetic wraps). -/
def wrap64 (n : Nat) : Nat := n % 2^64

/-- Go uint64 subtraction `a - b` (wraps modulo `2^64`) for `a b < 2^64`. -/
def u64sub (a b : Nat) : Nat := (a + 2^64 - b) % 2^64

/-- Go cast `int64(u)` of a uint64 value: two's-complement reinterpretation. -/
def toInt64ofU64 (n : Nat) : Int := if n < 2^63 then (n : Int) else (n : Int) - 2^64

/-- Go cast `uint64(i)` of an int64 value: two's-complement reinterpretation. -/
def toU64ofInt (i : Int) : Nat := (i % (2^64 : Int)).toNat

/-- Reduction of a signed 64-bit intermediate into `[-2^63, 2^63)` (Go int64
arithmetic wraps). -/
def wrapI64 (i : Int) : Int := ((i + 2^63) % 2^64) - 2^63

/-- Modelled from the spec: `sat_add` on signed 64-bit integers — on
overflow/underflow clamp at the nearest bound (arbmath.SaturatingAdd is not
in the source tree). -/
def SaturatingAdd (a b : Int) : Int := max (-(2^63)) (min (a + b) (2^63 - 1))

/-- Modelled from the spec: `sat_sub` on signed 64-bit integers — clamp at
the nearest bound (arbmath.SaturatingSub is not in the source tree). -/
def SaturatingSub (a b : Int) : Int := max (-(2^63)) (min (a - b) (2^63 - 1))

/-- Modelled from the spec: `sat_ucast(x: i64) -> u64` clamps negative to 0
(arbmath.SaturatingUCast is not in the source tree). -/
def SaturatingUCast (i : Int) : Nat := if i < 0 then 0 else i.toNat

/-- Modelled from the spec: `sat_add` on unsigned 64-bit integers — clamp at
the nearest bound (arbmath.SaturatingUAdd is not in the source tree). -/
def SaturatingUAdd (a b : Nat) : Nat := min (a + b) (2^64 - 1)

/-- Modelled from the spec: `sat_mul` on unsigned 64-bit integers — clamp at
the nearest bound (arbmath.SaturatingUMul is not in the source tree). -/
def SaturatingUMul (a b : Nat) : Nat := min (a * b) (2^64 - 1)

/-- Modelled from the spec: minimum of two signed integers
(arbmath.MinInt is not in the source tree). -/
def MinInt (a b : Int) : Int := min a b

/-- Modelled from the spec: `one_in_bips = 10 000`. -/
def OneInBips : Int := 10000

/-- Modelled from the spec: `percent_to_bips` (one percent is 100 bips). -/
def PercentToBips (p : Nat) : Int := (p : Int) * 100

/-- Modelled from the spec: `natural_to_bips(n) = n × 10 000`
(arbmath.NaturalToBips is not in the source tree). -/
def NaturalToBips (n : Int) : Int := n * 10000

/-- Modelled from the spec: integer analogue of `big_mul_by_bips`,
`(x × b) / 10 000` rounded toward zero (arbmath.IntMulByBips is not in the
source tree). -/
def IntMulByBips (x b : Int) : Int := (x * b).tdiv 10000

/-- Modelled from the spec: `big_mul_by_bips(x: u256, b: bips) -> u256` is
`(x × b) / 10 000`, rounded down (arbmath.BigMulByBips is not in the source
tree). -/
def BigMulByBips (x : Nat) (b : Int) : Nat := (((x : Int) * b).tdiv 10000).toNat

/-- Modelled from the spec: the elasticity multiplier is the consensus
constant 2 (params.ElasticityMultiplier is not in the source tree). -/
def ElasticityMultiplier : Nat := 2

/-- Positive branch of the exponential approximant: a cubic lower Taylor
approximant of `exp(x / 10 000)` in basis points, saturating at the int64
bound for large `x`. -/
def approxExpBipsPos (x : Nat) : Nat :=
  min (10000 + x + x^2 / 20000 + x^3 / 600000000) (2^63 - 1)

/-- Unsigned value of the exponential approximant; the negative branch uses
`exp(-y) = 1/exp(y)` scaled to basis points. -/
def approxExpBips (x : Int) : Nat :=
  if 0 ≤ x then approxExpBipsPos x.toNat
  else 100000000 / approxExpBipsPos (-x).toNat

/-- Modelled from the spec: `approx_exp_bips(x: bips) -> bips`, a rational
approximant of `exp(x / 10 000)` that is monotonically non-decreasing,
returns exactly 10 000 at `x = 0`, returns at most 10 000 for `x ≤ 0`, and
saturates (rather than overflowing) for large positive `x`
(arbmath.ApproxExpBasisPoints is not in the source tree; the spec leaves the
exact coefficients implementation-defined, so the claims below depend only on
the stated shape properties). -/
def ApproxExpBasisPoints (x : Int) : Int := (approxExpBips x : Int)

/-- Modelled from the spec: the ratio mixing of the pre-exponential
algorithm is carried out in an exact big-rational type
(arbmath.UfracToBigFloat is not in the source tree; the spec §9 mandates
big-rational arithmetic with explicit truncation, avoiding IEEE-754). -/
def UfracToBigFloat (a b : Nat) : ℚ := (a : ℚ) / (b : ℚ)

/-- Modelled from the spec: truncation of the mixed big-rational ratio to
uint64 basis points ("then truncated to u64"); negative truncates to 0 and
values beyond the uint64 range saturate at the bound. -/
def ratToU64 (q : ℚ) : Nat :=
  if q ≤ 0 then 0 else min (q.num.toNat / q.den) (2^64 - 1)

/-- Version from which the exponential pricing algorithm is used
(`FirstExponentialPricingVersion` in the source). -/
def FirstExponentialPricingVersion : Nat := 4

/-- Modelled from the spec: the persisted scalars of the pricing state
(§3 of the spec); the typed storage accessors of `L2PricingState` are not in
the source tree, so storage is modelled as this record and every
getter/setter as a field read/update.  uint64 fields are `Nat`, int64 fields
are `Int`, wei-denominated u256 fields are `Nat`. -/
structure L2PricingState where
  speedLimitPerSecond : Nat
  maxPerBlockGasLimit : Nat
  baseFeeWei : Nat
  minBaseFeeWei : Nat
  gasPool_preExp : Int
  gasPoolLastBlock : Int
  gasPoolSeconds : Nat
  rateEstimate : Nat
  rateEstimateInertia : Nat
  gasPoolTarget : Nat
  gasPoolWeight : Nat
  gasBacklog : Nat
  pricingInertia : Nat
  backlogTolerance : Nat
deriving DecidableEq, Repr

/-- Modelled from the spec: `gas_pool_max = speed_limit × gas_pool_seconds`
(§3), computed with saturating arithmetic (§4.A) and clamped at the int64
bound (the `GasPoolMax` accessor is not in the source tree). -/
def GasPoolMax (s : L2PricingState) : Int :=
  min ((s.speedLimitPerSecond : Int) * (s.gasPoolSeconds : Int)) (2^63 - 1)

/-- Ranges of the persisted scalars: uint64 fields below `2^64`, int64
fields in `[-2^63, 2^63)`.  The storage backend only ever yields in-range
words, so theorems quantifying over states assume this. -/
def WellFormed (s : L2PricingState) : Prop :=
  s.speedLimitPerSecond < 2^64 ∧ s.maxPerBlockGasLimit < 2^64 ∧
  s.gasPoolSeconds < 2^64 ∧ s.rateEstimate < 2^64 ∧
  s.rateEstimateInertia < 2^64 ∧ s.gasPoolTarget < 2^64 ∧
  s.gasPoolWeight < 2^64 ∧ s.gasBacklog < 2^64 ∧
  s.pricingInertia < 2^64 ∧ s.backlogTolerance < 2^64 ∧
  -(2^63) ≤ s.gasPool_preExp ∧ s.gasPool_preExp < 2^63 ∧
  -(2^63) ≤ s.gasPoolLastBlock ∧ s.gasPoolLastBlock < 2^63

instance (s : L2PricingState) : Decidable (WellFormed s) := by
  unfold WellFormed; infer_instance

/-- Embedding of `AddToGasPool_preExp` (source lines 43-49): saturating add of
the gas delta to the signed legacy gas pool. -/
def AddToGasPool_preExp (gas : Int) (s : L2PricingState) : L2PricingState :=
  { s with gasPool_preExp := SaturatingAdd s.gasPool_preExp gas }

/-- Embedding of `AddToGasPool` (source lines 29-41): before the exponential
version it adds to the legacy pool; from version 4 on it pays off the backlog
(`int64(backlog)` is Go's reinterpreting cast). -/
def AddToGasPool (gas : Int) (arbosVersion : Nat) (s : L2PricingState) : L2PricingState :=
  if arbosVersion < FirstExponentialPricingVersion then
    AddToGasPool_preExp gas s
  else
    { s with gasBacklog := SaturatingUCast (SaturatingSub (toInt64ofU64 s.gasBacklog) gas) }

/-- Embedding of `UpdatePricingModel_preExp` (source lines 75-165), the
legacy controller.  Go uint64/int64 arithmetic wraps (`wrap64` / `wrapI64`),
casts reinterpret, and `/` on int64 is truncation toward zero (`Int.tdiv`);
the Go code's `debug` parameter only prints and is dropped.  Divisions whose
denominator can be zero make Go panic; the embedding totalizes them with the
`div`-by-zero-is-zero convention and the theorems below carry the
corresponding nonzero hypotheses. -/
def UpdatePricingModel_preExp (l2BaseFee timePassed arbosVersion : Nat)
    (s : L2PricingState) : L2PricingState :=
  let poolMax := GasPoolMax s
  let gasPool := MinInt s.gasPool_preExp poolMax
  let gasPoolLastBlock := MinInt s.gasPoolLastBlock poolMax
  let gasUsed := toU64ofInt (wrapI64 (gasPoolLastBlock - gasPool))
  let rateSeconds := s.rateEstimateInertia
  let rate := SaturatingUAdd (SaturatingUMul rateSeconds s.rateEstimate) gasUsed /
      wrap64 (rateSeconds + timePassed)
  let speedLimit := s.speedLimitPerSecond
  let rateRatio := UfracToBigFloat rate speedLimit
  let timeToFull := wrapI64 ((wrapI64 (poolMax - gasPool)).tdiv (toInt64ofU64 speedLimit))
  let poolStep :=
    if toU64ofInt timeToFull < timePassed then
      let spaceBefore := toU64ofInt (wrapI64 (poolMax - gasPool))
      (u64sub (toU64ofInt poolMax)
          (wrap64 (spaceBefore * spaceBefore) / SaturatingUMul (wrap64 (2 * speedLimit)) timePassed),
        poolMax)
    else
      (wrap64 (toU64ofInt gasPool + wrap64 (timePassed * speedLimit) / 2),
        wrapI64 (gasPool + toInt64ofU64 (wrap64 (speedLimit * timePassed))))
  let averagePool := poolStep.1
  let newGasPool := poolStep.2
  let poolTargetGas := toU64ofInt (IntMulByBips poolMax (toInt64ofU64 s.gasPoolTarget))
  let poolRatio : ℚ :=
    if averagePool < wrap64 (2 * poolTargetGas) then
      UfracToBigFloat (u64sub (wrap64 (2 * poolTargetGas)) averagePool) poolTargetGas
    else 0
  let otherWeight := toU64ofInt (wrapI64 (OneInBips - toInt64ofU64 s.gasPoolWeight))
  let averageOfRatiosRaw :=
    ratToU64 (poolRatio * (s.gasPoolWeight : ℚ) + rateRatio * (otherWeight : ℚ))
  let averageOfRatios := toInt64ofU64 averageOfRatiosRaw
  let averageOfRatiosB :=
    if arbosVersion < 3 ∧ PercentToBips 200 < averageOfRatios then PercentToBips 200
    else averageOfRatios
  let expArg := (wrapI64 (wrapI64 (averageOfRatiosB - OneInBips) * toInt64ofU64 timePassed)).tdiv 120
  let price := BigMulByBips l2BaseFee (ApproxExpBasisPoints expArg)
  let maxPrice := l2BaseFee * ElasticityMultiplier
  let priceFloored := if price < s.minBaseFeeWei then s.minBaseFeeWei else price
  let priceBounded := if maxPrice < priceFloored then maxPrice else priceFloored
  { s with baseFeeWei := priceBounded, gasPool_preExp := newGasPool,
           gasPoolLastBlock := newGasPool, rateEstimate := rate }

/-- Embedding of `UpdatePricingModel` (source lines 52-73): dispatch on the
version; from version 4 on, discharge the backlog by
`int64(timePassed*speedLimit)` and set the base fee from the exponential of
the excess over the tolerance. -/
def UpdatePricingModel (l2BaseFee timePassed arbosVersion : Nat)
    (s : L2PricingState) : L2PricingState :=
  if arbosVersion < FirstExponentialPricingVersion then
    UpdatePricingModel_preExp l2BaseFee timePassed arbosVersion s
  else
    let speedLimit := s.speedLimitPerSecond
    let s1 := AddToGasPool (toInt64ofU64 (wrap64 (timePassed * speedLimit))) arbosVersion s
    let backlog := s1.gasBacklog
    let baseFee :=
      if wrap64 (s1.backlogTolerance * speedLimit) < backlog then
        let excess := toInt64ofU64 (u64sub backlog (wrap64 (s1.backlogTolerance * speedLimit)))
        let exponentBips :=
          (NaturalToBips excess).tdiv (toInt64ofU64 (wrap64 (s1.pricingInertia * speedLimit)))
        BigMulByBips s1.minBaseFeeWei (ApproxExpBasisPoints exponentBips)
      else s1.minBaseFeeWei
    { s1 with baseFeeWei := baseFee }

/-- Embedding of `PerBlockGasLimit` (source lines 167-180): the stored
constant from version 4 on; before that, the legacy pool clamped into
`[0, maxPerBlockGasLimit]`. -/
def PerBlockGasLimit (arbosVersion : Nat) (s : L2PricingState) : Nat :=
  if FirstExponentialPricingVersion ≤ arbosVersion then s.maxPerBlockGasLimit
  else if s.gasPool_preExp < 0 then 0
  else if s.maxPerBlockGasLimit < toU64ofInt s.gasPool_preExp then s.maxPerBlockGasLimit
  else toU64ofInt s.gasPool_preExp

/-- Genesis defaults of the pricing state (spec §3; `Initial…` constants in
the source). -/
def initialState : L2PricingState :=
  { speedLimitPerSecond := 1000000, maxPerBlockGasLimit := 20000000,
    baseFeeWei := 100000000, minBaseFeeWei := 100000000,
    gasPool_preExp := 600000000, gasPoolLastBlock := 600000000,
    gasPoolSeconds := 600, rateEstimate := 1000000, rateEstimateInertia := 60,
    gasPoolTarget := 8000, gasPoolWeight := 6000, gasBacklog := 0,
    pricingInertia := 102, backlogTolerance := 10 }

lemma wrap64_id {n : Nat} (h : n < 2^64) : wrap64 n = n := Nat.mod_eq_of_lt h

lemma toInt64ofU64_id {n : Nat} (h : n < 2^63) : toInt64ofU64 n = (n : Int) := if_pos h

lemma toU64ofInt_id {i : Int} (h0 : 0 ≤ i) (h : i < 2^64) : toU64ofInt i = i.toNat := by
  unfold toU64ofInt; omega

lemma wrapI64_id {i : Int} (h1 : -(2^63) ≤ i) (h2 : i < 2^63) : wrapI64 i = i := by
  unfold wrapI64; omega

lemma u64sub_id {a b : Nat} (hb : b ≤ a) (ha : a < 2^64) : u64sub a b = a - b := by
  unfold u64sub; omega

lemma SaturatingSub_id {a b : Int} (h1 : -(2^63) ≤ a - b) (h2 : a - b < 2^63) :
    SaturatingSub a b = a - b := by
  unfold SaturatingSub; omega

lemma SaturatingAdd_id {a b : Int} (h1 : -(2^63) ≤ a + b) (h2 : a + b < 2^63) :
    SaturatingAdd a b = a + b := by
  unfold SaturatingAdd; omega

lemma SaturatingUCast_toNat {i : Int} : SaturatingUCast i = i.toNat := by
  unfold SaturatingUCast; split <;> omega

lemma tdiv_natCast (a b : Nat) : (a : Int).tdiv (b : Int) = ((a / b : Nat) : Int) := rfl

lemma approxExpBipsPos_ge (x : Nat) : 10000 ≤ approxExpBipsPos x := by
  unfold approxExpBipsPos
  have h1 : (10000 : Nat) ≤ 10000 + x + x^2 / 20000 + x^3 / 600000000 := by omega
  omega

lemma approxExpBipsPos_pos (x : Nat) : 0 < approxExpBipsPos x :=
  lt_of_lt_of_le (by norm_num) (approxExpBipsPos_ge x)

lemma approxExpBipsPos_mono {x y : Nat} (h : x ≤ y) :
    approxExpBipsPos x ≤ approxExpBipsPos y := by
  unfold approxExpBipsPos
  have h2 : x^2 ≤ y^2 := Nat.pow_le_pow_left h 2
  have h3 : x^3 ≤ y^3 := Nat.pow_le_pow_left h 3
  have h2' : x^2 / 20000 ≤ y^2 / 20000 := Nat.div_le_div_right h2
  have h3' : x^3 / 600000000 ≤ y^3 / 600000000 := Nat.div_le_div_right h3
  omega

lemma approxExpBips_mono {x y : Int} (h : x ≤ y) : approxExpBips x ≤ approxExpBips y := by
  unfold approxExpBips
  rcases le_or_lt 0 x with hx | hx
  · rw [if_pos hx, if_pos (le_trans hx h)]
    exact approxExpBipsPos_mono (by omega)
  · rcases le_or_lt 0 y with hy | hy
    · rw [if_neg (by omega), if_pos hy]
      calc 100000000 / approxExpBipsPos (-x).toNat
          ≤ 100000000 / 10000 :=
            Nat.div_le_div_left (approxExpBipsPos_ge _) (by norm_num)
        _ = 10000 := by norm_num
        _ ≤ approxExpBipsPos y.toNat := approxExpBipsPos_ge _
    · rw [if_neg (by omega), if_neg (by omega)]
      exact Nat.div_le_div_left (approxExpBipsPos_mono (by omega)) (approxExpBipsPos_pos _)

lemma approxExpBips_zero : approxExpBips 0 = 10000 := by decide

lemma approxExpBips_ge_of_nonneg {x : Int} (h : 0 ≤ x) : 10000 ≤ approxExpBips x := by
  calc (10000 : Nat) = approxExpBips 0 := approxExpBips_zero.symm
    _ ≤ approxExpBips x := approxExpBips_mono h

lemma BigMulByBips_natCast (x n : Nat) : BigMulByBips x (n : Int) = x * n / 10000 := by
  unfold BigMulByBips
  rw [show ((x : Int) * (n : Int)) = ((x * n : Nat) : Int) by push_cast; ring,
    show (10000 : Int) = ((10000 : Nat) : Int) from rfl, tdiv_natCast]
  exact Int.toNat_natCast _

lemma BigMulByBips_approx_mono (x : Nat) {e1 e2 : Int} (h : e1 ≤ e2) :
    BigMulByBips x (ApproxExpBasisPoints e1) ≤ BigMulByBips x (ApproxExpBasisPoints e2) := by
  unfold ApproxExpBasisPoints
  rw [BigMulByBips_natCast, BigMulByBips_natCast]
  exact Nat.div_le_div_right (Nat.mul_le_mul_left x (approxExpBips_mono h))

lemma le_BigMulByBips_approx (x : Nat) {e : Int} (h : 0 ≤ e) :
    x ≤ BigMulByBips x (ApproxExpBasisPoints e) := by
  unfold ApproxExpBasisPoints
  rw [BigMulByBips_natCast]
  have h1 : x * 10000 ≤ x * approxExpBips e :=
    Nat.mul_le_mul_left x (approxExpBips_ge_of_nonneg h)
  calc x = x * 10000 / 10000 := by omega
    _ ≤ x * approxExpBips e / 10000 := Nat.div_le_div_right h1

lemma ite_min_le (a b : Nat) : (if a < b then a else b) ≤ a := by
  split <;> omega

lemma min_eq_ite (a b : Nat) : min a b = if b < a then b else a := by
  rw [Nat.min_def]; split <;> split <;> omega

/-- Claim C3: for every call to `update_pricing_model` with
`arbos_version < 4`, the persisted new base fee is at most `prev_base_fee`
times the elasticity multiplier 2, for every starting state and every
`time_passed` (the upper clamp of the pre-exponential algorithm is applied
last, so it always bounds the persisted fee). -/
theorem claim_C3 (l2BaseFee timePassed arbosVersion : Nat) (s : L2PricingState)
    (hv : arbosVersion < 4) :
    (UpdatePricingModel l2BaseFee timePassed arbosVersion s).baseFeeWei ≤
      l2BaseFee * 2 := by
  rw [UpdatePricingModel, if_pos (show arbosVersion < FirstExponentialPricingVersion by
    unfold FirstExponentialPricingVersion; omega)]
  simp only [UpdatePricingModel_preExp, ElasticityMultiplier]
  exact ite_min_le (l2BaseFee * 2) _

/-- Witness for C3: version 3 at the genesis state. -/
theorem claim_C3_witness :
    (3 : Nat) < 4 ∧
      (UpdatePricingModel 100000000 1 3 initialState).baseFeeWei ≤ 100000000 * 2 :=
  ⟨by norm_num, claim_C3 100000000 1 3 initialState (by norm_num)⟩

/-- Claim C8: `per_block_gas_limit(version)` returns the stored constant
`per_block_gas_limit` when `version ≥ 4`; when `version < 4` it returns
`min(gas_pool, per_block_gas_limit)` clamped at zero. -/
theorem claim_C8 (arbosVersion : Nat) (s : L2PricingState) (hwf : WellFormed s) :
    PerBlockGasLimit arbosVersion s =
      if 4 ≤ arbosVersion then s.maxPerBlockGasLimit
      else if s.gasPool_preExp < 0 then 0
      else min s.gasPool_preExp.toNat s.maxPerBlockGasLimit := by
  obtain ⟨-, -, -, -, -, -, -, -, -, -, h1, h2, -, -⟩ := hwf
  unfold PerBlockGasLimit FirstExponentialPricingVersion
  rcases le_or_lt 4 arbosVersion with h | h
  · rw [if_pos h, if_pos h]
  · have h4 : ¬(4 ≤ arbosVersion) := by omega
    rw [if_neg h4, if_neg h4]
    rcases lt_or_le s.gasPool_preExp 0 with hp | hp
    · rw [if_pos hp, if_pos hp]
    · have hp' : ¬s.gasPool_preExp < 0 := by omega
      rw [if_neg hp', if_neg hp', toU64ofInt_id hp (by omega), min_eq_ite]

/-- Witness for C8: version 3 at the genesis state. -/
theorem claim_C8_witness :
    PerBlockGasLimit 3 initialState =
      if 4 ≤ 3 then initialState.maxPerBlockGasLimit
      else if initialState.gasPool_preExp < 0 then 0
      else min initialState.gasPool_preExp.toNat initialState.maxPerBlockGasLimit :=
  claim_C8 3 initialState (by decide)

/-- Claim C10: for `arbos_version ≥ 4` the base fee persisted by
`update_pricing_model` does not depend on the `prev_base_fee` argument; two
calls from the same starting state with the same `time_passed` and version
but different `prev_base_fee` values produce identical final storage
contents. -/
theorem claim_C10 (arbosVersion : Nat) (hv : 4 ≤ arbosVersion)
    (fee1 fee2 timePassed : Nat) (s : L2PricingState) :
    UpdatePricingModel fee1 timePassed arbosVersion s =
      UpdatePricingModel fee2 timePassed arbosVersion s := by
  have h : ¬arbosVersion < FirstExponentialPricingVersion := by
    unfold FirstExponentialPricingVersion; omega
  rw [UpdatePricingModel, UpdatePricingModel, if_neg h, if_neg h]

/-- Witness for C10: version 4 at the genesis state with two different
previous base fees. -/
theorem claim_C10_witness :
    (4 : Nat) ≤ 4 ∧
      UpdatePricingModel 0 0 4 initialState = UpdatePricingModel 123 0 4 initialState :=
  ⟨by norm_num, claim_C10 4 (by norm_num) 0 123 0 initialState⟩
